import Mathlib

/-!
Verification development for the httptester HTC (Httptester Test Case)
language core: the lexer (scanner.go), the recursive-descent stanza parser
(parser.go), the command parsers and the expectation evaluator (command
code: Expect, TxResp, TxReq).

Strings of the Go source are modelled as lists of characters.  The
bufio.Reader used by the scanner is modelled by the remaining character
list together with the last successfully read character: UnreadRune
succeeds exactly when the previous reader operation was a successful
ReadRune, and pushes that one rune back.  Loops in the source are given a
fuel parameter; exhausting the fuel yields a distinguished outcome (for
the parser loops) modelling non-termination, and callers always supply
ample fuel for the inputs considered.
-/

set_option maxRecDepth 10000
set_option maxHeartbeats 1000000

/-- Character list standing for a Go string. -/
abbrev Str := List Char

/-- Token kinds of the HTC scanner, from the tokenType constants of
scanner.go.  The NEWLINE kind is referenced by the tx command parsers
(TxResp.Parse, TxReq.Parse) and by scanner_test.go, but scanner.go
declares no such constant and its scan function never produces one; it is
included here so that those call sites can be embedded, and the scanner
embedding never emits it. -/
inductive TokTy where
  | ILLEGAL | EOF | WS
  | STRING | INTEGER
  | DOT | HASH | OPEN_BRACKET | CLOSE_BRACKET | OPEN_CURLY | CLOSE_CURLY
  | EQUAL | NOTEQUAL | TILDE
  | HANDLE | CLIENT | EXPECT | TX
  | REQ | RESP | METHOD | STATUS | HEADERS | BODY
  | BODY_ARG | STATUS_ARG | HEADER_ARG | URL_ARG | METHOD_ARG
  | NEWLINE
deriving DecidableEq, BEq, Repr

/-- A lexical token: kind and literal text (token struct of scanner.go). -/
structure token where
  typ : TokTy
  val : Str
deriving DecidableEq, BEq, Repr

/-- newToken of scanner.go. -/
def newToken (t : TokTy) (v : Str) : token := ⟨t, v⟩

/-- The scanner over a buffered reader (scanner struct of scanner.go).
rest is the unconsumed input; lastRead holds the rune a subsequent
UnreadRune would push back (none when the last operation was not a
successful ReadRune). -/
structure scanner where
  rest : Str
  lastRead : Option Char
deriving DecidableEq, BEq, Repr

/-- Fresh scanner over an input, as built by newScanner. -/
def newScanner (input : Str) : scanner := ⟨input, none⟩

/-- Marker rune for end of input (eof of scanner.go, rune 0).  Inputs are
assumed not to contain the NUL character, as in every HTC script. -/
def eofRune : Char := Char.ofNat 0

/-- read of scanner.go: next rune, or eofRune at end of input.  A read at
end of input invalidates the pushback slot, as bufio.ReadRune does on
error. -/
def scanner.read (s : scanner) : Char × scanner :=
  match s.rest with
  | [] => (eofRune, ⟨[], none⟩)
  | c :: r => (c, ⟨r, some c⟩)

/-- unread of scanner.go (bufio.UnreadRune): push the previously read rune
back; a no-op when the last operation was not a successful read. -/
def scanner.unread (s : scanner) : scanner :=
  match s.lastRead with
  | some c => ⟨c :: s.rest, none⟩
  | none => s

/-- isWhitespace of scanner.go: space, tab, or newline. -/
def isWhitespace (ch : Char) : Bool :=
  ch == ' ' || ch == '\t' || ch == '\n'

/-- isLetter of scanner.go. -/
def isLetter (ch : Char) : Bool :=
  ('a' ≤ ch && ch ≤ 'z') || ('A' ≤ ch && ch ≤ 'Z')

/-- isDigit of scanner.go. -/
def isDigit (ch : Char) : Bool :=
  '0' ≤ ch && ch ≤ '9'

/-- Ident runes: letter, digit, minus or underscore (the condition used in
scan and scanIdent). -/
def isIdentRune (ch : Char) : Bool :=
  isLetter ch || isDigit ch || ch == '-' || ch == '_'

/-- Numeric value of a digit character. -/
def digitVal (c : Char) : Nat := c.toNat - 48

/-- Value of a digit string, most significant first. -/
def digitsVal (cs : Str) : Nat :=
  cs.foldl (fun acc c => acc * 10 + digitVal c) 0

/-- strconv.Atoi success predicate on a 64-bit platform: an optional sign
followed by at least one digit, with the value in the int64 range. -/
def atoiOk (s : Str) : Bool :=
  match s with
  | [] => false
  | '+' :: ds => ds ≠ [] && ds.all isDigit && digitsVal ds ≤ 9223372036854775807
  | '-' :: ds => ds ≠ [] && ds.all isDigit && digitsVal ds ≤ 9223372036854775808
  | ds => ds.all isDigit && digitsVal ds ≤ 9223372036854775807

/-- Integer value of a token that satisfied atoiOk (used where the source
ignores the strconv.Atoi error); 0 on malformed input. -/
def atoiVal (s : Str) : Int :=
  match s with
  | '+' :: ds => (digitsVal ds : Int)
  | '-' :: ds => -(digitsVal ds : Int)
  | ds => (digitsVal ds : Int)

/-- Keyword table of scanIdent: the switch classifying a scanned ident
string, falling back to INTEGER for Atoi-parsable text and ILLEGAL
otherwise. -/
def classify (str : Str) : token :=
  if str = "eq".toList then newToken .EQUAL str
  else if str = "ne".toList then newToken .NOTEQUAL str
  else if str = "handle".toList then newToken .HANDLE str
  else if str = "client".toList then newToken .CLIENT str
  else if str = "expect".toList then newToken .EXPECT str
  else if str = "req".toList then newToken .REQ str
  else if str = "resp".toList then newToken .RESP str
  else if str = "method".toList then newToken .METHOD str
  else if str = "headers".toList then newToken .HEADERS str
  else if str = "body".toList then newToken .BODY str
  else if str = "status".toList then newToken .STATUS str
  else if str = "tx".toList then newToken .TX str
  else if str = "-body".toList then newToken .BODY_ARG str
  else if str = "-status".toList then newToken .STATUS_ARG str
  else if str = "-header".toList then newToken .HEADER_ARG str
  else if str = "-method".toList then newToken .METHOD_ARG str
  else if str = "-url".toList then newToken .URL_ARG str
  else if atoiOk str then newToken .INTEGER str
  else newToken .ILLEGAL str

/-- Loop of scanWhitespace: consume contiguous whitespace; a non-space
rune is unread, end of input stops. -/
def wsLoop (fuel : Nat) (s : scanner) : scanner :=
  match fuel with
  | 0 => s
  | fuel + 1 =>
    let (ch, s1) := s.read
    if ch == eofRune then s1
    else if !isWhitespace ch then s1.unread
    else wsLoop fuel s1

/-- scanWhitespace of scanner.go: consumes the current rune and all
contiguous whitespace, producing a single WS token with value a space. -/
def scanWhitespace (fuel : Nat) (s : scanner) : token × scanner :=
  (newToken .WS " ".toList, wsLoop fuel s)

/-- Loop of scanQuotedString: read verbatim until a closing quote or end
of input (no escape sequences). -/
def quotedLoop (fuel : Nat) (s : scanner) (acc : Str) : Str × scanner :=
  match fuel with
  | 0 => (acc, s)
  | fuel + 1 =>
    let (ch, s1) := s.read
    if ch == eofRune then (acc, s1)
    else if ch == '"' then (acc, s1)
    else quotedLoop fuel s1 (acc ++ [ch])

/-- scanQuotedString of scanner.go. -/
def scanQuotedString (fuel : Nat) (s : scanner) : token × scanner :=
  let (buf, s1) := quotedLoop fuel s []
  (newToken .STRING buf, s1)

/-- Loop of scanIdent: read contiguous ident runes; a non-ident rune is
unread, end of input stops. -/
def identLoop (fuel : Nat) (s : scanner) (acc : Str) : Str × scanner :=
  match fuel with
  | 0 => (acc, s)
  | fuel + 1 =>
    let (ch, s1) := s.read
    if ch == eofRune then (acc, s1)
    else if !isIdentRune ch then (acc, s1.unread)
    else identLoop fuel s1 (acc ++ [ch])

/-- scanIdent of scanner.go: the current rune plus all contiguous ident
runes, classified by the keyword table. -/
def scanIdent (fuel : Nat) (s : scanner) : token × scanner :=
  let (ch, s1) := s.read
  let (buf, s2) := identLoop fuel s1 [ch]
  (classify buf, s2)

/-- Comment loop inside scan: after a hash, read until a newline (HASH
token) or end of input (falls through to the EOF case of the switch). -/
def scanComment (fuel : Nat) (s : scanner) : token × scanner :=
  match fuel with
  | 0 => (newToken .HASH "#".toList, s)
  | fuel + 1 =>
    let (ch, s1) := s.read
    if ch == '\n' then (newToken .HASH "#".toList, s1)
    else if ch == eofRune then (newToken .EOF [], s1)
    else scanComment fuel s1

/-- scan of scanner.go: the next token. -/
def scan (fuel : Nat) (s : scanner) : token × scanner :=
  let (ch, s1) := s.read
  if isWhitespace ch then scanWhitespace fuel s1.unread
  else if isIdentRune ch then scanIdent fuel s1.unread
  else if ch == '"' then scanQuotedString fuel s1
  else if ch == '#' then scanComment fuel s1
  else if ch == eofRune then (newToken .EOF [], s1)
  else if ch == '.' then (newToken .DOT [ch], s1)
  else if ch == '[' then (newToken .OPEN_BRACKET [ch], s1)
  else if ch == ']' then (newToken .CLOSE_BRACKET [ch], s1)
  else if ch == Char.ofNat 123 then (newToken .OPEN_CURLY [ch], s1)
  else if ch == Char.ofNat 125 then (newToken .CLOSE_CURLY [ch], s1)
  else if ch == '~' then (newToken .TILDE [ch], s1)
  else (newToken .ILLEGAL [ch], s1)

/-- ScanUseful of scanner.go: the next token that is neither whitespace
nor a comment. -/
def ScanUseful (fuel : Nat) (s : scanner) : token × scanner :=
  match fuel with
  | 0 => (newToken .EOF [], s)
  | fuel + 1 =>
    let (t, s1) := scan (fuel + 1) s
    if t.typ == .WS || t.typ == .HASH then ScanUseful fuel s1
    else (t, s1)

/-- Parse-error sites of the parser and command parsers, one constructor
per distinct error return in parser.go and the command code.  The Go
messages are noted on each constructor. -/
inductive PErr where
  /-- handle stanza: expecting a URI path starting with a slash. -/
  | handleBadPath
  /-- handle stanza: expecting an opening curly. -/
  | handleNoOpen
  /-- handle stanza: expecting a closing curly after the tx command. -/
  | handleNoCloseAfterTx
  /-- client stanza: expecting a name for the client. -/
  | clientNoName
  /-- client stanza: expecting an opening curly. -/
  | clientNoOpen
  /-- expect command: expecting req or resp. -/
  | expectBadSide
  /-- expect command: expecting something like req.method (the dot). -/
  | expectNoDot
  /-- expect command: expecting method, headers, body or status. -/
  | expectBadField
  /-- expect command: expecting an opening bracket after headers. -/
  | expectHeaderNoOpenBracket
  /-- expect command: expecting a string header name. -/
  | expectHeaderNotString
  /-- expect command: expecting a closing bracket after the header name. -/
  | expectHeaderNoCloseBracket
  /-- expect command: expecting the operator to be eq, ne or tilde. -/
  | expectBadOperator
  /-- expect command: expecting a string or integer value. -/
  | expectBadValue
  /-- tx command (response): expecting a string flag argument. -/
  | txRespNotString
  /-- tx command (response): expecting a header (a value with a colon). -/
  | txRespBadHeader
  /-- tx command (response): expecting an integer after -status. -/
  | txRespNotInteger
  /-- tx command (response): expecting -body, -header, or -status. -/
  | txRespUnknownFlag
  /-- tx command (request): expecting a string flag argument. -/
  | txReqNotString
  /-- tx command (request): expecting a header (a value with a colon). -/
  | txReqBadHeader
  /-- tx command (request): expecting -url, -header, method, or -body. -/
  | txReqUnknownFlag
  /-- top level: an ILLEGAL token was scanned. -/
  | topIllegal (val : Str)
  /-- top level: at least one handle or client stanza is needed. -/
  | atLeastOneStanza
deriving DecidableEq, BEq, Repr

/-- Abnormal terminations of the Go program during parsing or
evaluation. -/
inductive Halt where
  /-- Runtime panic: index out of range (token.val at index 0 on an empty
  string literal in parseHandle). -/
  | panicIndexOutOfRange
  /-- log.Panic on a regexp.Match compile error in expectThing. -/
  | panicRegexp
  /-- log.Panic on an unknown operator in expectThing. -/
  | panicUnknownOperator
  /-- log.Fatal: requests have no status (ActualRequest). -/
  | fatalRequestsHaveNoStatus
deriving DecidableEq, BEq, Repr

/-- Outcome of running a piece of the Go program: a value, an error
return, an abnormal termination, or non-termination (fuel exhausted). -/
inductive Out (α : Type) where
  | ok : α → Out α
  | err : PErr → Out α
  | halt : Halt → Out α
  | spin
deriving DecidableEq, BEq, Repr

instance : Monad Out where
  pure := .ok
  bind x f := match x with
    | .ok a => f a
    | .err e => .err e
    | .halt h => .halt h
    | .spin => .spin

/-- The fields an expect command can test (ExpectField constants). -/
inductive ExpectField where
  | EXPECT_METHOD | EXPECT_HEADERS | EXPECT_BODY | EXPECT_STATUS
deriving DecidableEq, BEq, Repr

/-- The Expect command: a single assertion.  The operator is stored as a
token type, exactly as in the source. -/
structure Expect where
  verbatim : Str
  field : ExpectField
  headerName : Str
  operator : TokTy
  expected : Str
deriving DecidableEq, BEq, Repr

/-- The zero value Expect, as built at the expect call sites of
parser.go. -/
def emptyExpect : Expect :=
  ⟨[], .EXPECT_METHOD, [], .ILLEGAL, []⟩

/-- Escape of fmt %q for the characters appearing in HTC scripts: the
value is wrapped in double quotes, with backslash and double quote
escaped. -/
def goQuote (s : Str) : Str :=
  ['"'] ++ s.foldr (fun c acc =>
    if c == '"' || c == '\\' then '\\' :: c :: acc else c :: acc) [] ++ ['"']

/-- Operator and value part of Expect.Parse (the code following the field
switch): an operator token eq, ne or tilde, then a string or integer
value. -/
def Expect.ParseTail (fuel : Nat) (e : Expect) (s : scanner) :
    Out (Expect × scanner) :=
  let (tok, s) := ScanUseful fuel s
  let e := { e with verbatim := e.verbatim ++ " ".toList ++ tok.val }
  if tok.typ ≠ .EQUAL ∧ tok.typ ≠ .NOTEQUAL ∧ tok.typ ≠ .TILDE then
    .err .expectBadOperator
  else
    let e := { e with operator := tok.typ }
    let (tok, s) := ScanUseful fuel s
    let e := { e with verbatim := e.verbatim ++ " ".toList ++ goQuote tok.val }
    if tok.typ ≠ .STRING ∧ tok.typ ≠ .INTEGER then .err .expectBadValue
    else .ok ({ e with expected := tok.val }, s)

/-- Expect.Parse of the command code: side, dot, field (with a bracketed
header name for headers), then operator and value. -/
def Expect.Parse (fuel : Nat) (e : Expect) (s : scanner) :
    Out (Expect × scanner) :=
  let (tok, s) := ScanUseful fuel s
  let e := { e with verbatim := tok.val }
  if tok.typ ≠ .REQ ∧ tok.typ ≠ .RESP then .err .expectBadSide
  else
    let (tok, s) := ScanUseful fuel s
    let e := { e with verbatim := e.verbatim ++ tok.val }
    if tok.typ ≠ .DOT then .err .expectNoDot
    else
      let (tok, s) := ScanUseful fuel s
      let e := { e with verbatim := e.verbatim ++ tok.val }
      if tok.typ = .METHOD then
        Expect.ParseTail fuel { e with field := .EXPECT_METHOD } s
      else if tok.typ = .STATUS then
        Expect.ParseTail fuel { e with field := .EXPECT_STATUS } s
      else if tok.typ = .BODY then
        Expect.ParseTail fuel { e with field := .EXPECT_BODY } s
      else if tok.typ = .HEADERS then
        let e := { e with field := .EXPECT_HEADERS }
        let (tok, s) := ScanUseful fuel s
        let e := { e with verbatim := e.verbatim ++ tok.val }
        if tok.typ ≠ .OPEN_BRACKET then .err .expectHeaderNoOpenBracket
        else
          let (tok, s) := ScanUseful fuel s
          let e := { e with verbatim := e.verbatim ++ tok.val }
          if tok.typ ≠ .STRING then .err .expectHeaderNotString
          else
            let e := { e with headerName := tok.val }
            let (tok, s) := ScanUseful fuel s
            let e := { e with verbatim := e.verbatim ++ tok.val }
            if tok.typ ≠ .CLOSE_BRACKET then .err .expectHeaderNoCloseBracket
            else Expect.ParseTail fuel e s
      else .err .expectBadField

/-- Go map assignment m[k] = v on a map modelled as an association list:
overwrite the value of an existing key, otherwise append. -/
def mapSet (m : List (Str × Str)) (k v : Str) : List (Str × Str) :=
  match m with
  | [] => [(k, v)]
  | (k0, v0) :: rest =>
    if k0 = k then (k0, v) :: rest else (k0, v0) :: mapSet rest k v

/-- Go map lookup: the value for a key, if present. -/
def mapGet (m : List (Str × Str)) (k : Str) : Option Str :=
  match m with
  | [] => none
  | (k0, v0) :: rest => if k0 = k then some v0 else mapGet rest k

/-- strings.SplitN on the first colon with n = 2: the text before the
first colon and the text after it, or none when the value has no colon
(in which case SplitN returns a one-element slice). -/
def splitFirstColon (s : Str) : Option (Str × Str) :=
  match s with
  | [] => none
  | c :: rest =>
    if c == ':' then some ([], rest)
    else match splitFirstColon rest with
      | some (a, b) => some (c :: a, b)
      | none => none

/-- The TxResp command: the canned response of a handle stanza. -/
structure TxResp where
  statusCode : Int
  headers : List (Str × Str)
  body : Str
deriving DecidableEq, BEq, Repr

/-- The zero value TxResp, as built at the tx call site of parseHandle. -/
def emptyTxResp : TxResp := ⟨0, [], []⟩

/-- Flag loop of TxResp.Parse: terminates on EOF, a closing curly or a
NEWLINE token (unreading the terminator), and otherwise consumes -body,
-header or -status flags. -/
def TxResp.ParseLoop (fuel : Nat) (r : TxResp) (s : scanner) :
    Out (TxResp × scanner) :=
  match fuel with
  | 0 => .spin
  | fuel + 1 =>
    let (tok, s) := ScanUseful (fuel + 1) s
    if tok.typ = .EOF ∨ tok.typ = .CLOSE_CURLY ∨ tok.typ = .NEWLINE then
      .ok (r, s.unread)
    else if tok.typ = .BODY_ARG then
      let (tok, s) := ScanUseful (fuel + 1) s
      if tok.typ ≠ .STRING then .err .txRespNotString
      else TxResp.ParseLoop fuel { r with body := tok.val } s
    else if tok.typ = .HEADER_ARG then
      let (tok, s) := ScanUseful (fuel + 1) s
      if tok.typ ≠ .STRING then .err .txRespNotString
      else match splitFirstColon tok.val with
        | none => .err .txRespBadHeader
        | some (name, value) =>
          TxResp.ParseLoop fuel { r with headers := mapSet r.headers name value } s
    else if tok.typ = .STATUS_ARG then
      let (tok, s) := ScanUseful (fuel + 1) s
      if tok.typ ≠ .INTEGER then .err .txRespNotInteger
      else TxResp.ParseLoop fuel { r with statusCode := atoiVal tok.val } s
    else .err .txRespUnknownFlag

/-- TxResp.Parse of the command code: defaults status 200 and a fresh
header map, then runs the flag loop. -/
def TxResp.Parse (fuel : Nat) (r : TxResp) (s : scanner) :
    Out (TxResp × scanner) :=
  TxResp.ParseLoop fuel { r with statusCode := 200, headers := [] } s

/-- The TxReq command: the outbound request of a client stanza. -/
structure TxReq where
  uri : Str
  method : Str
  headers : List (Str × Str)
  body : Str
deriving DecidableEq, BEq, Repr

/-- The zero value TxReq, as built at the tx call site of parseClient. -/
def emptyTxReq : TxReq := ⟨[], [], [], []⟩

/-- Flag loop of TxReq.Parse: terminates on EOF, a closing curly or a
NEWLINE token (unreading the terminator), and otherwise consumes -body,
-header, -method or -url flags. -/
def TxReq.ParseLoop (fuel : Nat) (r : TxReq) (s : scanner) :
    Out (TxReq × scanner) :=
  match fuel with
  | 0 => .spin
  | fuel + 1 =>
    let (tok, s) := ScanUseful (fuel + 1) s
    if tok.typ = .EOF ∨ tok.typ = .CLOSE_CURLY ∨ tok.typ = .NEWLINE then
      .ok (r, s.unread)
    else if tok.typ = .BODY_ARG then
      let (tok, s) := ScanUseful (fuel + 1) s
      if tok.typ ≠ .STRING then .err .txReqNotString
      else TxReq.ParseLoop fuel { r with body := tok.val } s
    else if tok.typ = .HEADER_ARG then
      let (tok, s) := ScanUseful (fuel + 1) s
      if tok.typ ≠ .STRING then .err .txReqNotString
      else match splitFirstColon tok.val with
        | none => .err .txReqBadHeader
        | some (name, value) =>
          TxReq.ParseLoop fuel { r with headers := mapSet r.headers name value } s
    else if tok.typ = .METHOD_ARG then
      let (tok, s) := ScanUseful (fuel + 1) s
      if tok.typ ≠ .STRING then .err .txReqNotString
      else TxReq.ParseLoop fuel { r with method := tok.val } s
    else if tok.typ = .URL_ARG then
      let (tok, s) := ScanUseful (fuel + 1) s
      if tok.typ ≠ .STRING then .err .txReqNotString
      else TxReq.ParseLoop fuel { r with uri := tok.val } s
    else .err .txReqUnknownFlag

/-- TxReq.Parse of the command code: defaults method GET and a fresh
header map, then runs the flag loop. -/
def TxReq.Parse (fuel : Nat) (r : TxReq) (s : scanner) :
    Out (TxReq × scanner) :=
  TxReq.ParseLoop fuel { r with method := "GET".toList, headers := [] } s

/-- A handle stanza: URI path, assertions about the inbound request, and
the canned response. -/
structure HandleStanza where
  URIPath : Str
  Expectations : List Expect
  Response : TxResp
deriving DecidableEq, BEq, Repr

/-- A client stanza: name, outbound request, and assertions about the
received response. -/
structure ClientStanza where
  Name : Str
  Request : TxReq
  Expectations : List Expect
deriving DecidableEq, BEq, Repr

/-- Statement loop of parseHandle: a closing curly ends the stanza, expect
appends an assertion, tx parses the response and then requires the
closing curly; any other token is ignored and the loop continues (so a
stanza that never closes spins forever). -/
def parseHandleLoop (fuel : Nat) (s : scanner) (h : HandleStanza) :
    Out (HandleStanza × scanner) :=
  match fuel with
  | 0 => .spin
  | fuel + 1 =>
    let (tok, s) := ScanUseful (fuel + 1) s
    if tok.typ = .CLOSE_CURLY then .ok (h, s)
    else if tok.typ = .EXPECT then
      match Expect.Parse (fuel + 1) emptyExpect s with
      | .ok (exp, s) =>
        parseHandleLoop fuel s
          { h with Expectations := h.Expectations ++ [exp] }
      | .err e => .err e
      | .halt p => .halt p
      | .spin => .spin
    else if tok.typ = .TX then
      match TxResp.Parse (fuel + 1) emptyTxResp s with
      | .ok (resp, s) =>
        -- Sending the response is the last allowed action in a handle
        -- block.
        let (tok, s) := ScanUseful (fuel + 1) s
        if tok.typ ≠ .CLOSE_CURLY then .err .handleNoCloseAfterTx
        else .ok ({ h with Response := resp }, s)
      | .err e => .err e
      | .halt p => .halt p
      | .spin => .spin
    else parseHandleLoop fuel s h

/-- parseHandle of parser.go: a URI path string that must start with a
slash (indexing the value at 0, which panics on an empty string literal),
an opening curly, then the statement loop. -/
def parseHandle (fuel : Nat) (s : scanner) : Out (HandleStanza × scanner) :=
  let (tok, s) := ScanUseful fuel s
  if tok.typ ≠ .STRING then .err .handleBadPath
  else
    match tok.val with
    | [] => .halt .panicIndexOutOfRange
    | c :: _ =>
      if c ≠ '/' then .err .handleBadPath
      else
        let h : HandleStanza := ⟨tok.val, [], emptyTxResp⟩
        let (tok, s) := ScanUseful fuel s
        if tok.typ ≠ .OPEN_CURLY then .err .handleNoOpen
        else parseHandleLoop fuel s h

/-- Statement loop of parseClient: a closing curly ends the stanza, tx
parses (and overwrites) the request, expect appends an assertion; any
other token is ignored and the loop continues. -/
def parseClientLoop (fuel : Nat) (s : scanner) (c : ClientStanza) :
    Out (ClientStanza × scanner) :=
  match fuel with
  | 0 => .spin
  | fuel + 1 =>
    let (tok, s) := ScanUseful (fuel + 1) s
    if tok.typ = .CLOSE_CURLY then .ok (c, s)
    else if tok.typ = .TX then
      match TxReq.Parse (fuel + 1) emptyTxReq s with
      | .ok (req, s) => parseClientLoop fuel s { c with Request := req }
      | .err e => .err e
      | .halt p => .halt p
      | .spin => .spin
    else if tok.typ = .EXPECT then
      match Expect.Parse (fuel + 1) emptyExpect s with
      | .ok (exp, s) =>
        parseClientLoop fuel s
          { c with Expectations := c.Expectations ++ [exp] }
      | .err e => .err e
      | .halt p => .halt p
      | .spin => .spin
    else parseClientLoop fuel s c

/-- parseClient of parser.go: a client name string, an opening curly, then
the statement loop. -/
def parseClient (fuel : Nat) (s : scanner) : Out (ClientStanza × scanner) :=
  let (tok, s) := ScanUseful fuel s
  if tok.typ ≠ .STRING then .err .clientNoName
  else
    let c : ClientStanza := ⟨tok.val, emptyTxReq, []⟩
    let (tok, s) := ScanUseful fuel s
    if tok.typ ≠ .OPEN_CURLY then .err .clientNoOpen
    else parseClientLoop fuel s c

/-- Top-level loop of Parse: EOF ends, ILLEGAL aborts, handle and client
stanzas are appended in source order, any other token is silently
skipped; at EOF a program with no stanza at all is rejected. -/
def parseTop (fuel : Nat) (s : scanner) (h : List HandleStanza)
    (c : List ClientStanza) : Out (List HandleStanza × List ClientStanza) :=
  match fuel with
  | 0 => .spin
  | fuel + 1 =>
    let (tok, s) := ScanUseful (fuel + 1) s
    if tok.typ = .EOF then
      if h.isEmpty && c.isEmpty then .err .atLeastOneStanza else .ok (h, c)
    else if tok.typ = .ILLEGAL then .err (.topIllegal tok.val)
    else if tok.typ = .HANDLE then
      match parseHandle (fuel + 1) s with
      | .ok (hs, s) => parseTop fuel s (h ++ [hs]) c
      | .err e => .err e
      | .halt p => .halt p
      | .spin => .spin
    else if tok.typ = .CLIENT then
      match parseClient (fuel + 1) s with
      | .ok (cs, s) => parseTop fuel s h (c ++ [cs])
      | .err e => .err e
      | .halt p => .halt p
      | .spin => .spin
    else parseTop fuel s h c

/-- Parse of parser.go: run the top-level loop on a fresh scanner, with
fuel ample for the input length. -/
def Parse (input : Str) : Out (List HandleStanza × List ClientStanza) :=
  parseTop (input.length + 16) (newScanner input) [] []

/-- The example script simple.htc shipped with the repository. -/
def simpleHtc : Str :=
  ("# Test a basic get request\n\nhandle \"/endpoint/1\" \x7b\n    expect req.method eq \"GET\"\n    expect req.headers[\"User-Agent\"] ~ \"chrome\"\n    expect req.body eq \"\"\n    tx -body \"Hello world!\" -header \"X-HTC-Origin: true\" -status 200\n\x7d\n\nclient \"nemo\" \x7b\n    tx -url \"/endpoint/1\" -method \"GET\" -header \"User-Agent: this might look like chrome to some\"\n    expect resp.status ne 404\n    expect resp.headers[\"Server\"] ~ \"^ATS/[0-9]\\\\.[0-9]\\\\.[0-9]$\"\n    expect resp.headers[\"Something-That-Should-Not-Be-Set\"] eq \"\"\n    expect resp.status eq 200\n\x7d\n").toList

/-- Character-class item of a regular expression: a single character or
an inclusive range. -/
inductive ClsItem where
  | single (c : Char)
  | range (lo hi : Char)
deriving DecidableEq, BEq, Repr

/-- Abstract syntax of the regular-expression fragment used by HTC
scripts: literal characters, the any-character dot, character classes,
text anchors and concatenation. -/
inductive Reg where
  | emptyR
  | chr (c : Char)
  | anyChr
  | cls (neg : Bool) (items : List ClsItem)
  | startA
  | endA
  | seq (a b : Reg)
deriving DecidableEq, BEq, Repr

/-- Character-class body parser: items until the closing bracket.  As in
RE2, a bracket immediately after the opening (or after the negation hat)
is a literal; a class left unclosed at end of pattern is a compile
error. -/
def parseCls : Nat → Str → List ClsItem → Option (List ClsItem × Str)
  | 0, _, _ => none
  | _, [], _ => none
  | fuel + 1, cs, acc =>
    match cs with
    | ']' :: rest =>
      if acc.isEmpty then parseCls fuel rest [ClsItem.single ']']
      else some (acc, rest)
    | '\\' :: c2 :: rest =>
      if isLetter c2 || isDigit c2 then none
      else parseCls fuel rest (acc ++ [ClsItem.single c2])
    | ['\\'] => none
    | c :: '-' :: c2 :: rest =>
      if c2 == ']' then parseCls fuel ('-' :: c2 :: rest) (acc ++ [ClsItem.single c])
      else if c ≤ c2 then parseCls fuel rest (acc ++ [ClsItem.range c c2])
      else none
    | c :: rest => parseCls fuel rest (acc ++ [ClsItem.single c])
    | [] => none

/-- Recursive-descent parser for the regex fragment: a concatenation of
atoms, stopping at end of pattern or a closing parenthesis.  Anchors,
escaped punctuation, classes, the dot and parenthesised groups are
supported; an unclosed group, a trailing backslash, an unclosed class,
alphanumeric escapes and the repetition or alternation operators are
compile errors (the scripts under verification use none of the latter). -/
def parseSeq : Nat → Str → Option (Reg × Str)
  | 0, _ => none
  | fuel + 1, cs =>
    match cs with
    | [] => some (.emptyR, [])
    | ')' :: _ => some (.emptyR, cs)
    | cs =>
      let atom? : Option (Reg × Str) :=
        match cs with
        | '^' :: r => some (.startA, r)
        | '$' :: r => some (.endA, r)
        | '.' :: r => some (.anyChr, r)
        | '\\' :: c :: r =>
          if isLetter c || isDigit c then none else some (.chr c, r)
        | ['\\'] => none
        | '[' :: '^' :: r =>
          match parseCls fuel r [] with
          | some (items, rest) => some (.cls true items, rest)
          | none => none
        | '[' :: r =>
          match parseCls fuel r [] with
          | some (items, rest) => some (.cls false items, rest)
          | none => none
        | '(' :: r =>
          match parseSeq fuel r with
          | some (inner, ')' :: rest) => some (inner, rest)
          | _ => none
        | c :: r =>
          if c == '*' || c == '+' || c == '?' || c == '|' then none
          else some (.chr c, r)
        | [] => none
      match atom? with
      | none => none
      | some (a, rest) =>
        match parseSeq fuel rest with
        | none => none
        | some (b, rest2) => some (.seq a b, rest2)

/-- regexp.Compile on the modelled fragment: the whole pattern must be
consumed (a stray closing parenthesis is an error). -/
def compileRegex (pattern : Str) : Option Reg :=
  match parseSeq (2 * pattern.length + 4) pattern with
  | some (r, []) => some r
  | _ => none

/-- Membership of a character in a class item. -/
def inItem (c : Char) (it : ClsItem) : Bool :=
  match it with
  | .single c0 => c == c0
  | .range lo hi => lo ≤ c && c ≤ hi

/-- Exact-span matching: matchSpan r s i j holds when the regex r matches
exactly the characters of s from position i (inclusive) to position j
(exclusive); the hat anchor holds only at the start of the whole text and
the dollar anchor only at its end. -/
def matchSpan : Reg → Str → Nat → Nat → Bool
  | .emptyR, _, i, j => j == i
  | .startA, _, i, j => j == i && i == 0
  | .endA, s, i, j => j == i && i == s.length
  | .chr c, s, i, j => j == i + 1 && s.get? i == some c
  | .anyChr, s, i, j =>
    j == i + 1 && (match s.get? i with
      | some c => !(c == '\n')
      | none => false)
  | .cls neg items, s, i, j =>
    j == i + 1 && (match s.get? i with
      | some c => (items.any (inItem c)) != neg
      | none => false)
  | .seq a b, s, i, j =>
    (List.range (j + 1)).any fun k =>
      decide (i ≤ k) && matchSpan a s i k && matchSpan b s k j

/-- Unanchored matching, as regexp.Match: the regex matches anywhere
inside the text, over every candidate span. -/
def matchAnywhere (r : Reg) (s : Str) : Bool :=
  (List.range (s.length + 1)).any fun i =>
    (List.range (s.length + 1)).any fun j =>
      decide (i ≤ j) && matchSpan r s i j

/-- expectThing of the command code: the verdict of one assertion against
an actual value.  Equality and inequality compare strings exactly; the
tilde operator compiles the expected value as a regular expression and
tests a match anywhere in the actual value, panicking when the pattern
does not compile; any other operator value panics. -/
def expectThing (e : Expect) (actual : Str) : Out Bool :=
  match e.operator with
  | .EQUAL => .ok (e.expected == actual)
  | .NOTEQUAL => .ok (e.expected != actual)
  | .TILDE =>
    match compileRegex e.expected with
    | none => .halt .panicRegexp
    | some r => .ok (matchAnywhere r actual)
  | _ => .halt .panicUnknownOperator

/-- An inbound HTTP request as the evaluator sees it: method, headers and
an optional body stream. -/
structure HttpRequest where
  Method : Str
  Header : List (Str × Str)
  Body : Option Str
deriving DecidableEq, BEq, Repr

/-- An HTTP response as the evaluator sees it. -/
structure HttpResponse where
  StatusCode : Int
  Header : List (Str × Str)
  Body : Option Str
deriving DecidableEq, BEq, Repr

/-- http.Header.Get: case-insensitive lookup, empty string when the
header is absent. -/
def headerGet (h : List (Str × Str)) (name : Str) : Str :=
  match h with
  | [] => []
  | (k, v) :: rest =>
    if k.map Char.toLower = name.map Char.toLower then v
    else headerGet rest name

/-- Decimal digits of a natural number (helper for strconv.Itoa). -/
def natToStr (fuel n : Nat) : Str :=
  match fuel with
  | 0 => []
  | fuel + 1 =>
    if n < 10 then [Char.ofNat (48 + n)]
    else natToStr fuel (n / 10) ++ [Char.ofNat (48 + n % 10)]

/-- strconv.Itoa. -/
def intToStr (i : Int) : Str :=
  if i < 0 then '-' :: natToStr (i.natAbs + 1) i.natAbs
  else natToStr (i.natAbs + 1) i.natAbs

/-- ActualRequest of the command code: the request value the assertion
refers to.  Asking for a status on a request is a fatal error
(log.Fatal); a nil body reads as the empty string. -/
def Expect.ActualRequest (e : Expect) (req : HttpRequest) : Out Str :=
  match e.field with
  | .EXPECT_METHOD => .ok req.Method
  | .EXPECT_HEADERS => .ok (headerGet req.Header e.headerName)
  | .EXPECT_BODY => .ok (match req.Body with | none => [] | some b => b)
  | .EXPECT_STATUS => .halt .fatalRequestsHaveNoStatus

/-- Request of the command code: evaluate the assertion against an
inbound request. -/
def Expect.Request (e : Expect) (req : HttpRequest) : Out Bool :=
  (e.ActualRequest req) >>= expectThing e

/-- ActualResponse of the command code: the response value the assertion
refers to.  The switch has no method case, so a method assertion on a
response reads the zero-value empty string. -/
def Expect.ActualResponse (e : Expect) (resp : HttpResponse) : Out Str :=
  match e.field with
  | .EXPECT_STATUS => .ok (intToStr resp.StatusCode)
  | .EXPECT_HEADERS => .ok (headerGet resp.Header e.headerName)
  | .EXPECT_BODY => .ok (match resp.Body with | none => [] | some b => b)
  | .EXPECT_METHOD => .ok []

/-- Response of the command code: evaluate the assertion against a
received response. -/
def Expect.Response (e : Expect) (resp : HttpResponse) : Out Bool :=
  (e.ActualResponse resp) >>= expectThing e

/-- The regex pattern of the spec example. -/
def atsPattern : Str := "^ATS/[0-9]\\.[0-9]\\.[0-9]$".toList

/-- Token kinds produced by the keyword-table classification path of the
scanner (idents, keywords, flags, integer literals, illegal idents). -/
def wordTok (t : TokTy) : Bool :=
  match t with
  | .ILLEGAL | .STRING | .INTEGER | .EQUAL | .NOTEQUAL | .HANDLE | .CLIENT
  | .EXPECT | .TX | .REQ | .RESP | .METHOD | .STATUS | .HEADERS | .BODY
  | .BODY_ARG | .STATUS_ARG | .HEADER_ARG | .URL_ARG | .METHOD_ARG => true
  | _ => false

/-- The single-character punctuation tokens and the character each one is
scanned from. -/
def punctChar (t : TokTy) : Option Char :=
  match t with
  | .DOT => some '.'
  | .OPEN_BRACKET => some '['
  | .CLOSE_BRACKET => some ']'
  | .OPEN_CURLY => some (Char.ofNat 123)
  | .CLOSE_CURLY => some (Char.ofNat 125)
  | .TILDE => some '~'
  | _ => none

/-- The duplicate-header tx arguments of the C5 example, as seen by the
flag loop after the tx keyword has been consumed. -/
def txHeaderOverwrite : Str := " -header \"A: 1\" -header \"A: 2\"".toList

/-- Headers of a TxResp flag-loop outcome, for stating C5. -/
def respHeadersOf (o : Out (TxResp × scanner)) : Option (List (Str × Str)) :=
  match o with
  | .ok (r, _) => some r.headers
  | _ => none

/-- Headers of a TxReq flag-loop outcome, for stating C5. -/
def reqHeadersOf (o : Out (TxReq × scanner)) : Option (List (Str × Str)) :=
  match o with
  | .ok (r, _) => some r.headers
  | _ => none

/-- The parsed form of the assertion expect req.status eq 200. -/
def eStatus : Expect :=
  ⟨"req.status eq \"200\"".toList, .EXPECT_STATUS, [], .EQUAL, "200".toList⟩

/-- The parsed form of a regex assertion whose pattern does not
compile. -/
def eBadRx : Expect :=
  ⟨"req.method ~ \"(invalid-regular-expression\"".toList, .EXPECT_METHOD,
    [], .TILDE, "(invalid-regular-expression".toList⟩

/-- The Expect of a parse outcome, for stating C7. -/
def expectOf (o : Out (Expect × scanner)) : Option Expect :=
  match o with
  | .ok (e, _) => some e
  | _ => none

/-- A GET request with no headers and no body. -/
def someReq : HttpRequest := ⟨"GET".toList, [], none⟩

/-- The regex assertion of the spec example, testing the Server header
against the anchored ATS version pattern. -/
def atsExpect : Expect :=
  ⟨[], .EXPECT_HEADERS, "Server".toList, .TILDE, atsPattern⟩

example : (ScanUseful 40 (newScanner "# banana potato\n  \n\n handle".toList)).1
    = newToken .HANDLE "handle".toList := by decide
example : (ScanUseful 30 (newScanner "-status-code".toList)).1
    = newToken .ILLEGAL "-status-code".toList := by decide
example : (ScanUseful 10 (newScanner "\"".toList)).1
    = newToken .STRING [] := by decide
example : (ScanUseful 10 (newScanner "# banana".toList)).1
    = newToken .EOF [] := by decide
example : (ScanUseful 10 (newScanner "     ".toList)).1
    = newToken .EOF [] := by decide
example : (ScanUseful 40 (newScanner "# banana potato\n\"ciao\"".toList)).1
    = newToken .STRING "ciao".toList := by decide

example : Parse ("# nothing here\n   \n# more\n").toList
    = .err .atLeastOneStanza := by decide

example : (compileRegex atsPattern).isSome = true := by decide
example : (compileRegex "(invalid-regular-expression".toList) = none := by decide
example : (compileRegex "chrome".toList).map (matchAnywhere ·
    "this might look like chrome to some".toList) = some true := by decide
example : (compileRegex atsPattern).map (matchAnywhere · "ATS/9.1.2".toList)
    = some true := by decide
example : (compileRegex atsPattern).map (matchAnywhere · "nginx/1.2".toList)
    = some false := by decide
example : (compileRegex atsPattern).map (matchAnywhere · "xATS/9.1.2".toList)
    = some false := by decide

lemma classify_word (s : Str) : wordTok (classify s).typ = true := by
  unfold classify
  simp only [apply_ite (fun t : token => wordTok t.typ)]
  simp only [newToken, wordTok, ite_self]

lemma scanIdent_word (f : Nat) (x : scanner) :
    wordTok ((scanIdent f x).1.typ) = true := by
  rcases hx : x.read with ⟨ch, s1⟩
  rcases hy : identLoop f s1 [ch] with ⟨buf, s2⟩
  simp [scanIdent, hx, hy]
  exact classify_word buf

lemma scanQuotedString_typ (f : Nat) (x : scanner) :
    (scanQuotedString f x).1.typ = .STRING := by
  rcases hy : quotedLoop f x [] with ⟨buf, s1⟩
  simp [scanQuotedString, hy, newToken]

lemma scanWhitespace_typ (f : Nat) (x : scanner) :
    (scanWhitespace f x).1.typ = .WS := rfl

lemma scanComment_cases (f : Nat) :
    ∀ x : scanner, (scanComment f x).1.typ = .HASH ∨
      (scanComment f x).1.typ = .EOF := by
  induction f with
  | zero => intro x; left; rfl
  | succ n ih =>
    intro x
    obtain ⟨rest, last⟩ := x
    cases rest with
    | nil => right; rfl
    | cons c r =>
      unfold scanComment
      simp only [scanner.read]
      split
      · left; rfl
      · split
        · right; rfl
        · exact ih ⟨r, some c⟩

lemma word_not_newline (t : TokTy) (h : wordTok t = true) :
    (t == TokTy.NEWLINE) = false := by
  cases t <;> first | rfl | simp [wordTok] at h

/-- The scan function of scanner.go never produces a line-break (NEWLINE)
token: every scan result is a whitespace, ident-class, string, comment
(HASH), end-of-input, punctuation or illegal token. -/
lemma scan_not_newline (fuel : Nat) (s : scanner) :
    ((scan fuel s).1.typ == TokTy.NEWLINE) = false := by
  obtain ⟨rest, last⟩ := s
  cases rest with
  | nil => rfl
  | cons c r =>
    unfold scan
    simp only [scanner.read, scanner.unread]
    by_cases h1 : isWhitespace c = true
    · rw [if_pos h1]
      rfl
    · rw [if_neg h1]
      by_cases h2 : isIdentRune c = true
      · rw [if_pos h2]
        exact word_not_newline _ (scanIdent_word _ _)
      · rw [if_neg h2]
        by_cases h3 : (c == '"') = true
        · rw [if_pos h3]
          rw [scanQuotedString_typ]; rfl
        · rw [if_neg h3]
          by_cases h4 : (c == '#') = true
          · rw [if_pos h4]
            rcases scanComment_cases fuel ⟨r, some c⟩ with h | h <;> rw [h] <;> rfl
          · rw [if_neg h4]
            by_cases h5 : (c == eofRune) = true
            · rw [if_pos h5]
              rfl
            · rw [if_neg h5]
              by_cases h6 : (c == '.') = true
              · rw [if_pos h6]
                rfl
              · rw [if_neg h6]
                by_cases h7 : (c == '[') = true
                · rw [if_pos h7]
                  rfl
                · rw [if_neg h7]
                  by_cases h8 : (c == ']') = true
                  · rw [if_pos h8]
                    rfl
                  · rw [if_neg h8]
                    by_cases h9 : (c == Char.ofNat 123) = true
                    · rw [if_pos h9]
                      rfl
                    · rw [if_neg h9]
                      by_cases h10 : (c == Char.ofNat 125) = true
                      · rw [if_pos h10]
                        rfl
                      · rw [if_neg h10]
                        by_cases h11 : (c == '~') = true
                        · rw [if_pos h11]
                          rfl
                        · rw [if_neg h11]
                          rfl

/-- ScanUseful never returns a whitespace, comment or line-break token:
WS and HASH are skipped by its loop and NEWLINE is never scanned. -/
lemma ScanUseful_skips (fuel : Nat) : ∀ s : scanner,
    ((ScanUseful fuel s).1.typ == TokTy.WS) = false ∧
    ((ScanUseful fuel s).1.typ == TokTy.HASH) = false ∧
    ((ScanUseful fuel s).1.typ == TokTy.NEWLINE) = false := by
  induction fuel with
  | zero => intro s; exact ⟨rfl, rfl, rfl⟩
  | succ n ih =>
    intro s
    unfold ScanUseful
    rcases h : scan (n + 1) s with ⟨t, s1⟩
    simp only
    split
    · exact ih s1
    · rename_i hg
      simp only [Bool.or_eq_true, not_or] at hg
      have hnl := scan_not_newline (n + 1) s
      rw [h] at hnl
      exact ⟨Bool.not_eq_true _ ▸ hg.1, Bool.not_eq_true _ ▸ hg.2, hnl⟩

lemma word_punct_none (t : TokTy) (h : wordTok t = true) :
    punctChar t = none := by
  cases t <;> first | rfl | simp [wordTok] at h

lemma punct_not_ws_hash (ty : TokTy) (c : Char) (h : punctChar ty = some c) :
    (ty == TokTy.WS || ty == TokTy.HASH) = false := by
  cases ty <;> first | rfl | exact Option.noConfusion h

/-- Scanning a punctuation character from a scanner with an empty
pushback slot yields the punctuation token and records the character for
unreading. -/
lemma scan_punct_fwd (f : Nat) (r : Str) (ty : TokTy) (c : Char)
    (h : punctChar ty = some c) :
    scan f ⟨c :: r, none⟩ = (newToken ty [c], ⟨r, some c⟩) := by
  cases ty <;> simp only [punctChar] at h <;>
    first
    | exact Option.noConfusion h
    | (injection h with h2; subst h2; rfl)

/-- Inversion for punctuation scans: when scan returns a punctuation
token, the token text is that single character and the resulting scanner
state holds it in the pushback slot. -/
lemma scan_punct_inv (f : Nat) (s : scanner) (tok : token) (s2 : scanner)
    (c : Char) (hs : scan f s = (tok, s2)) (hp : punctChar tok.typ = some c) :
    tok = newToken tok.typ [c] ∧ s2 = ⟨s2.rest, some c⟩ := by
  obtain ⟨rest, last⟩ := s
  cases rest with
  | nil =>
    rw [show scan f ⟨[], last⟩ = (newToken .EOF [], ⟨[], none⟩) from rfl] at hs
    injection hs with hTok hS
    subst hTok
    exact Option.noConfusion hp
  | cons c0 r =>
    unfold scan at hs
    simp only [scanner.read, scanner.unread] at hs
    by_cases hk1 : isWhitespace c0 = true
    · rw [if_pos hk1] at hs
      unfold scanWhitespace at hs
      injection hs with hTok hS
      subst hTok
      exact Option.noConfusion hp
    · rw [if_neg hk1] at hs
      by_cases hk2 : isIdentRune c0 = true
      · rw [if_pos hk2] at hs
        unfold scanIdent at hs
        simp only [scanner.read] at hs
        rcases hil : identLoop f (⟨r, some c0⟩ : scanner) [c0] with ⟨buf, s3⟩
        rw [hil] at hs
        injection hs with hTok hS
        subst hTok
        rw [word_punct_none _ (classify_word buf)] at hp
        exact Option.noConfusion hp
      · rw [if_neg hk2] at hs
        by_cases hk3 : (c0 == '"') = true
        · rw [if_pos hk3] at hs
          unfold scanQuotedString at hs
          rcases hql : quotedLoop f (⟨r, some c0⟩ : scanner) [] with ⟨buf, s3⟩
          rw [hql] at hs
          injection hs with hTok hS
          subst hTok
          exact Option.noConfusion hp
        · rw [if_neg hk3] at hs
          by_cases hk4 : (c0 == '#') = true
          · rw [if_pos hk4] at hs
            rcases scanComment_cases f ⟨r, some c0⟩ with h | h <;> rw [hs] at h <;>
              change tok.typ = _ at h <;> rw [h] at hp <;> exact Option.noConfusion hp
          · rw [if_neg hk4] at hs
            by_cases hk5 : (c0 == eofRune) = true
            · rw [if_pos hk5] at hs
              injection hs with hTok hS
              subst hTok
              exact Option.noConfusion hp
            · rw [if_neg hk5] at hs
              by_cases hk6 : (c0 == '.') = true
              · rw [if_pos hk6] at hs
                injection hs with hTok hS
                subst hTok
                subst hS
                injection hp with hc
                subst hc
                have hc0 : c0 = '.' := beq_iff_eq.mp hk6
                subst hc0
                exact ⟨rfl, rfl⟩
              · rw [if_neg hk6] at hs
                by_cases hk7 : (c0 == '[') = true
                · rw [if_pos hk7] at hs
                  injection hs with hTok hS
                  subst hTok
                  subst hS
                  injection hp with hc
                  subst hc
                  have hc0 : c0 = '[' := beq_iff_eq.mp hk7
                  subst hc0
                  exact ⟨rfl, rfl⟩
                · rw [if_neg hk7] at hs
                  by_cases hk8 : (c0 == ']') = true
                  · rw [if_pos hk8] at hs
                    injection hs with hTok hS
                    subst hTok
                    subst hS
                    injection hp with hc
                    subst hc
                    have hc0 : c0 = ']' := beq_iff_eq.mp hk8
                    subst hc0
                    exact ⟨rfl, rfl⟩
                  · rw [if_neg hk8] at hs
                    by_cases hk9 : (c0 == Char.ofNat 123) = true
                    · rw [if_pos hk9] at hs
                      injection hs with hTok hS
                      subst hTok
                      subst hS
                      injection hp with hc
                      subst hc
                      have hc0 : c0 = Char.ofNat 123 := beq_iff_eq.mp hk9
                      subst hc0
                      exact ⟨rfl, rfl⟩
                    · rw [if_neg hk9] at hs
                      by_cases hk10 : (c0 == Char.ofNat 125) = true
                      · rw [if_pos hk10] at hs
                        injection hs with hTok hS
                        subst hTok
                        subst hS
                        injection hp with hc
                        subst hc
                        have hc0 : c0 = Char.ofNat 125 := beq_iff_eq.mp hk10
                        subst hc0
                        exact ⟨rfl, rfl⟩
                      · rw [if_neg hk10] at hs
                        by_cases hk11 : (c0 == '~') = true
                        · rw [if_pos hk11] at hs
                          injection hs with hTok hS
                          subst hTok
                          subst hS
                          injection hp with hc
                          subst hc
                          have hc0 : c0 = '~' := beq_iff_eq.mp hk11
                          subst hc0
                          exact ⟨rfl, rfl⟩
                        · rw [if_neg hk11] at hs
                          injection hs with hTok hS
                          subst hTok
                          exact Option.noConfusion hp

/-- ScanUseful delivers a punctuation token sitting at the head of the
input unchanged: it is neither whitespace nor a comment, so the skip loop
returns it at once. -/
lemma ScanUseful_punct_fwd (f2 : Nat) (r : Str) (ty : TokTy) (c : Char)
    (h : punctChar ty = some c) :
    ScanUseful (f2 + 1) ⟨c :: r, none⟩ = (newToken ty [c], ⟨r, some c⟩) := by
  unfold ScanUseful
  rw [scan_punct_fwd (f2 + 1) r ty c h]
  simp only [newToken]
  rw [if_neg]
  intro hcontra
  rw [punct_not_ws_hash ty c h] at hcontra
  exact Bool.false_ne_true hcontra

lemma parseTop_succ (n : Nat) (s : scanner) (h : List HandleStanza)
    (c : List ClientStanza) :
    parseTop (n + 1) s h c =
      (let (tok, s1) := ScanUseful (n + 1) s
      if tok.typ = .EOF then
        if h.isEmpty && c.isEmpty then .err .atLeastOneStanza else .ok (h, c)
      else if tok.typ = .ILLEGAL then .err (.topIllegal tok.val)
      else if tok.typ = .HANDLE then
        match parseHandle (n + 1) s1 with
        | .ok (hs, s2) => parseTop n s2 (h ++ [hs]) c
        | .err e => .err e
        | .halt p => .halt p
        | .spin => .spin
      else if tok.typ = .CLIENT then
        match parseClient (n + 1) s1 with
        | .ok (cs, s2) => parseTop n s2 h (c ++ [cs])
        | .err e => .err e
        | .halt p => .halt p
        | .spin => .spin
      else parseTop n s1 h c) := rfl

/-- The top-level parse loop only returns a program after its final
emptiness check: a successful outcome never carries empty handler and
client lists at once. -/
lemma parseTop_ok_nonempty (fuel : Nat) : ∀ (s : scanner)
    (h : List HandleStanza) (c : List ClientStanza) hs cs,
    parseTop fuel s h c = .ok (hs, cs) → (hs.isEmpty && cs.isEmpty) = false := by
  induction fuel with
  | zero => intro s h c hs cs hp; exact Out.noConfusion hp
  | succ n ih =>
    intro s h c hs cs hp
    rw [parseTop_succ] at hp
    rcases hsc : ScanUseful (n + 1) s with ⟨tok, s1⟩
    rw [hsc] at hp
    dsimp only at hp
    by_cases h1 : tok.typ = .EOF
    · rw [if_pos h1] at hp
      by_cases h0 : (h.isEmpty && c.isEmpty) = true
      · rw [if_pos h0] at hp
        exact Out.noConfusion hp
      · rw [if_neg h0] at hp
        injection hp with h2
        injection h2 with ha hb
        subst ha
        subst hb
        exact Bool.eq_false_iff.mpr h0
    · rw [if_neg h1] at hp
      by_cases h2 : tok.typ = .ILLEGAL
      · rw [if_pos h2] at hp
        exact Out.noConfusion hp
      · rw [if_neg h2] at hp
        by_cases h3 : tok.typ = .HANDLE
        · rw [if_pos h3] at hp
          cases hph : parseHandle (n + 1) s1 with
          | ok pr =>
            rw [hph] at hp
            obtain ⟨hs1, s2⟩ := pr
            exact ih _ _ _ _ _ hp
          | err e => rw [hph] at hp; exact Out.noConfusion hp
          | halt p => rw [hph] at hp; exact Out.noConfusion hp
          | spin => rw [hph] at hp; exact Out.noConfusion hp
        · rw [if_neg h3] at hp
          by_cases h4 : tok.typ = .CLIENT
          · rw [if_pos h4] at hp
            cases hpc : parseClient (n + 1) s1 with
            | ok pr =>
              rw [hpc] at hp
              obtain ⟨cs1, s2⟩ := pr
              exact ih _ _ _ _ _ hp
            | err e => rw [hpc] at hp; exact Out.noConfusion hp
            | halt p => rw [hpc] at hp; exact Out.noConfusion hp
            | spin => rw [hpc] at hp; exact Out.noConfusion hp
          · rw [if_neg h4] at hp
            exact ih _ _ _ _ _ hp

/-- The operator stored by a successful run of the operator-and-value
part of the expect parser is one of eq, ne, tilde. -/
lemma ParseTail_ok (fuel : Nat) (e0 : Expect) (s : scanner) (e : Expect)
    (s2 : scanner) (hp : Expect.ParseTail fuel e0 s = .ok (e, s2)) :
    e.operator = .EQUAL ∨ e.operator = .NOTEQUAL ∨ e.operator = .TILDE := by
  unfold Expect.ParseTail at hp
  rcases h1 : ScanUseful fuel s with ⟨t1, s1⟩
  rw [h1] at hp
  dsimp only at hp
  by_cases hg : t1.typ ≠ .EQUAL ∧ t1.typ ≠ .NOTEQUAL ∧ t1.typ ≠ .TILDE
  · rw [if_pos hg] at hp
    exact Out.noConfusion hp
  · rw [if_neg hg] at hp
    have hop : t1.typ = .EQUAL ∨ t1.typ = .NOTEQUAL ∨ t1.typ = .TILDE := by
      tauto
    rcases h2 : ScanUseful fuel s1 with ⟨t2, s2'⟩
    rw [h2] at hp
    dsimp only at hp
    by_cases hv : t2.typ ≠ .STRING ∧ t2.typ ≠ .INTEGER
    · rw [if_pos hv] at hp
      exact Out.noConfusion hp
    · rw [if_neg hv] at hp
      injection hp with h3
      injection h3 with he hs2
      subst he
      exact hop

/-- An Expect whose operator is one of the three parsed operators can
never reach the unknown-operator panic of expectThing. -/
lemma expectThing_no_unknown (e : Expect) (a : Str)
    (hop : e.operator = .EQUAL ∨ e.operator = .NOTEQUAL ∨ e.operator = .TILDE) :
    (expectThing e a == Out.halt Halt.panicUnknownOperator) = false := by
  unfold expectThing
  rcases hop with h | h | h <;> rw [h]
  · rfl
  · rfl
  · rcases hc : compileRegex e.expected with _ | r <;> rfl

/-- Unanchored matching holds exactly when some span of the text matches
the regex: there is no implicit anchoring beyond what the pattern itself
contains. -/
lemma matchAnywhere_iff (r : Reg) (s : Str) :
    matchAnywhere r s = true ↔
      ∃ i j, i ≤ j ∧ j ≤ s.length ∧ matchSpan r s i j = true := by
  unfold matchAnywhere
  simp only [List.any_eq_true, List.mem_range, Bool.and_eq_true,
    decide_eq_true_eq]
  constructor
  · rintro ⟨i, hi, j, hj, hij, hm⟩
    exact ⟨i, j, hij, Nat.lt_succ_iff.mp hj, hm⟩
  · rintro ⟨i, j, hij, hj, hm⟩
    exact ⟨i, Nat.lt_succ_iff.mpr (le_trans hij hj), j,
      Nat.lt_succ_iff.mpr hj, hij, hm⟩

/-- C1: the claim says every script shaped like the example of the spec
(a handle stanza, then a client stanza whose tx command line is followed
by expect statements) parses successfully with handler and client
captured.  Against the code this fails on the repository example script
itself: ScanUseful never returns a line-break token, so the TxReq flag
loop runs past the end of the tx line, meets the expect keyword, and
aborts with its unknown-flag parse error. -/
theorem claim_C1 : Parse simpleHtc = .err .txReqUnknownFlag := by decide

/-- C2: the claim says a bare line break that terminates a tx statement
remains observable to the command parsers, the flag loop stopping at a
line-break token and unreading it.  Against the code this fails: on the
very input of the repository test TestScanUseful (scanner_test.go line
76, expected result NEWLINE with text a newline), ScanUseful discards the
comment token and the whitespace and returns the HANDLE keyword; more
generally scan never produces a NEWLINE token (the constant is not even
declared in scanner.go), and ScanUseful never returns a whitespace,
comment or line-break token, so the NEWLINE terminator check of the tx
flag loops can never fire. -/
theorem claim_C2 :
    (ScanUseful 40 (newScanner "# banana potato\n  \n\n handle".toList)).1
      = newToken .HANDLE "handle".toList
    ∧ (∀ fuel : Nat, ∀ s : scanner,
        ((scan fuel s).1.typ == TokTy.NEWLINE) = false)
    ∧ (∀ fuel : Nat, ∀ s : scanner,
        ((ScanUseful fuel s).1.typ == TokTy.NEWLINE) = false
        ∧ ((ScanUseful fuel s).1.typ == TokTy.WS) = false
        ∧ ((ScanUseful fuel s).1.typ == TokTy.HASH) = false) := by
  refine ⟨by decide, scan_not_newline, fun fuel s => ?_⟩
  obtain ⟨hw, hh, hn⟩ := ScanUseful_skips fuel s
  exact ⟨hn, hw, hh⟩

/-- Counterexample for C3 as stated: parsing the empty handle stanza
yields a response whose status code is the integer zero value 0, with no
headers and empty body — not the claimed status 200. -/
theorem claim_C3_counterexample :
    Parse ("handle \"/p\" \x7b \x7d").toList
      = .ok ([⟨"/p".toList, [], ⟨0, [], []⟩⟩], [])
    ∧ ((0 : Int) == 200) = false := by decide

/-- C3 (amended): an empty handle stanza parses to a HandleStanza whose
response is the Go zero value — status code 0, empty headers, empty
body; the default status 200 is installed by TxResp.Parse and therefore
applies only when a tx command is present, as the second stanza shows. -/
theorem claim_C3 :
    Parse ("handle \"/p\" \x7b \x7d").toList
      = .ok ([⟨"/p".toList, [], ⟨0, [], []⟩⟩], [])
    ∧ Parse ("handle \"/p\" \x7b tx \x7d").toList
      = .ok ([⟨"/p".toList, [], ⟨200, [], []⟩⟩], []) := by decide

/-- C4: the claim says the URI-path check of parseHandle is total over
all string-literal values and never panics, returning a descriptive
error.  The check indexes the literal at position 0 before comparing it
with the slash, so a handle stanza with an empty path literal panics at
runtime with an index-out-of-range error; the descriptive parse error is
produced only for non-empty literals that do not start with a slash. -/
theorem claim_C4_eval :
    Parse ("handle \"\"").toList = .halt .panicIndexOutOfRange
    ∧ Parse ("handle \"x\"").toList = .err .handleBadPath := by decide

/-- Counterexample for C5 as stated: after the duplicate -header flags,
key A is mapped to the text after the first colon with its leading space
preserved — the string space-2 — and not to the string 2, on both the
response and the request side. -/
theorem claim_C5_counterexample :
    respHeadersOf (TxResp.Parse 64 emptyTxResp (newScanner txHeaderOverwrite))
      = some [("A".toList, " 2".toList)]
    ∧ reqHeadersOf (TxReq.Parse 64 emptyTxReq (newScanner txHeaderOverwrite))
      = some [("A".toList, " 2".toList)]
    ∧ (" 2".toList ≠ ("2".toList : Str)) := by decide

/-- C5 (amended): for both TxResp.Parse and TxReq.Parse, the duplicate
-header flags leave exactly one entry, mapping A to the text after the
first colon including its leading space: each -header argument is split
on the first colon into name and value, and the last occurrence of a
header name overwrites earlier ones. -/
theorem claim_C5 :
    TxResp.Parse 64 emptyTxResp (newScanner txHeaderOverwrite)
      = .ok (⟨200, [("A".toList, " 2".toList)], []⟩, ⟨[], none⟩)
    ∧ TxReq.Parse 64 emptyTxReq (newScanner txHeaderOverwrite)
      = .ok (⟨[], "GET".toList, [("A".toList, " 2".toList)], []⟩, ⟨[], none⟩)
    ∧ mapGet [("A".toList, " 2".toList)] "A".toList = some " 2".toList
    ∧ splitFirstColon "A: 2".toList = some ("A".toList, " 2".toList)
    ∧ mapSet [("A".toList, " 1".toList)] "A".toList " 2".toList
      = [("A".toList, " 2".toList)] := by decide

/-- C6: the evaluator verdict is exact string equality under eq, exact
inequality under ne, and under tilde a regular-expression match anywhere
within the actual value with no implicit anchoring (a span match at any
position); the spec example pattern anchored at both ends accepts
ATS/9.1.2 and rejects nginx/1.2. -/
theorem claim_C6 :
    (∀ (e : Expect) (a : Str), e.operator = .EQUAL →
        (expectThing e a = .ok true ↔ e.expected = a))
    ∧ (∀ (e : Expect) (a : Str), e.operator = .NOTEQUAL →
        (expectThing e a = .ok true ↔ e.expected ≠ a))
    ∧ (∀ (e : Expect) (a : Str) (r : Reg), e.operator = .TILDE →
        compileRegex e.expected = some r →
        (expectThing e a = .ok true ↔
          ∃ i j, i ≤ j ∧ j ≤ a.length ∧ matchSpan r a i j = true))
    ∧ expectThing atsExpect "ATS/9.1.2".toList = .ok true
    ∧ expectThing atsExpect "nginx/1.2".toList = .ok false := by
  refine ⟨?_, ?_, ?_, by decide, by decide⟩
  · intro e a hop
    simp [expectThing, hop, beq_iff_eq]
  · intro e a hop
    simp [expectThing, hop, bne_iff_ne]
  · intro e a r hop hc
    unfold expectThing
    rw [hop, hc]
    simp only [Out.ok.injEq]
    exact matchAnywhere_iff r a

/-- Witness for C6: equality of the carried method value makes the eq
assertion true, a differing status makes the ne assertion true. -/
theorem claim_C6_witness :
    expectThing ⟨[], .EXPECT_METHOD, [], .EQUAL, "GET".toList⟩ "GET".toList
      = .ok true
    ∧ expectThing ⟨[], .EXPECT_STATUS, [], .NOTEQUAL, "404".toList⟩
        "200".toList = .ok true := by
  constructor
  · exact (claim_C6.1 _ _ rfl).mpr rfl
  · exact (claim_C6.2.1 _ _ rfl).mpr (by decide)

/-- C7: asserting the status field on the request side, and a regex
assertion whose pattern fails to compile, are both accepted by
Expect.Parse (it returns them without error); each is detected only at
evaluation time, where the request-status lookup is a fatal error
(log.Fatal) and the uncompilable pattern a panic (log.Panic) — neither
produces a boolean verdict. -/
theorem claim_C7 :
    expectOf (Expect.Parse 64 emptyExpect (newScanner "req.status eq 200".toList))
      = some eStatus
    ∧ Expect.ActualRequest eStatus someReq = .halt .fatalRequestsHaveNoStatus
    ∧ Expect.Request eStatus someReq = .halt .fatalRequestsHaveNoStatus
    ∧ expectOf (Expect.Parse 64 emptyExpect
        (newScanner "req.method ~ \"(invalid-regular-expression\"".toList))
      = some eBadRx
    ∧ expectThing eBadRx "x".toList = .halt .panicRegexp
    ∧ Expect.Request eBadRx someReq = .halt .panicRegexp := by decide

/-- C8: a script that produces no stanza fails with the structural error
(shown on a comments-and-whitespace-only script), and every successful
Parse yields at least one handler or client: an outcome with both lists
empty is impossible. -/
theorem claim_C8 :
    (∀ (input : Str) (hs : List HandleStanza) (cs : List ClientStanza),
        Parse input = .ok (hs, cs) → (hs.isEmpty && cs.isEmpty) = false)
    ∧ Parse ("# nothing here\n   \n# more\n").toList
        = .err .atLeastOneStanza := by
  constructor
  · intro input hs cs hp
    exact parseTop_ok_nonempty _ _ _ _ _ _ hp
  · decide

/-- Witness for C8: the one-handler program parsed from a minimal handle
stanza is non-empty. -/
theorem claim_C8_witness :
    (([⟨"/p".toList, [], ⟨0, [], []⟩⟩] : List HandleStanza).isEmpty
      && ([] : List ClientStanza).isEmpty) = false :=
  claim_C8.1 ("handle \"/p\" \x7b \x7d").toList
    [⟨"/p".toList, [], ⟨0, [], []⟩⟩] [] (by decide)

/-- C9 (amended): the unread of scanner.go is a one-rune pushback
(bufio.UnreadRune), not a one-token pushback, and re-scanning after
unread does not in general return the token just scanned (see the
counterexample: for the keyword token eq delimited by a space, the scan
ended by unreading the space, so a further unread is a no-op and
re-scanning yields the whitespace token).  For the single-character
punctuation tokens dot, brackets, curly braces and tilde — whose scan
ends with the successful read of that one character — unread followed by
scanning again does return the very same token: in particular, after the
tx flag loop unreads its closing-curly terminator, both a raw scan and
the next significant token read by the enclosing stanza parser deliver
that same closing curly. -/
theorem claim_C9 (fuel : Nat) (s : scanner) (tok : token) (s2 : scanner)
    (c : Char) (hs : scan fuel s = (tok, s2))
    (hp : punctChar tok.typ = some c) :
    scan fuel s2.unread = (tok, s2) ∧
    ∀ f2 : Nat, ScanUseful (f2 + 1) s2.unread = (tok, s2) := by
  obtain ⟨r2, l2⟩ := s2
  obtain ⟨h1, h2⟩ := scan_punct_inv fuel s tok ⟨r2, l2⟩ c hs hp
  injection h2 with h2a h2b
  subst h2b
  constructor
  · rw [show (⟨r2, some c⟩ : scanner).unread = ⟨c :: r2, none⟩ from rfl]
    rw [scan_punct_fwd fuel r2 tok.typ c hp]
    rw [← h1]
  · intro f2
    rw [show (⟨r2, some c⟩ : scanner).unread = ⟨c :: r2, none⟩ from rfl]
    rw [ScanUseful_punct_fwd f2 r2 tok.typ c hp]
    rw [← h1]

/-- Witness for C9: scanning a lone closing curly, unreading it and
scanning again returns the same closing-curly token, both for scan and
for ScanUseful. -/
theorem claim_C9_witness :
    scan 5 (scanner.unread ⟨[], some (Char.ofNat 125)⟩)
      = (newToken .CLOSE_CURLY [Char.ofNat 125], ⟨[], some (Char.ofNat 125)⟩)
    ∧ ∀ f2 : Nat, ScanUseful (f2 + 1) (scanner.unread ⟨[], some (Char.ofNat 125)⟩)
      = (newToken .CLOSE_CURLY [Char.ofNat 125], ⟨[], some (Char.ofNat 125)⟩) :=
  claim_C9 5 (newScanner [Char.ofNat 125])
    (newToken .CLOSE_CURLY [Char.ofNat 125])
    ⟨[], some (Char.ofNat 125)⟩ (Char.ofNat 125) (by decide) (by decide)

/-- Counterexample for C9 as stated: after scanning the keyword token eq
from the input eq-space-x, unread is a no-op (the scan already ended with
an unread of the delimiting space), so scanning again yields the
whitespace token, not the same eq token. -/
theorem claim_C9_counterexample :
    (scan 10 (newScanner "eq x".toList)).1 = newToken .EQUAL "eq".toList
    ∧ (scan 10 ((scan 10 (newScanner "eq x".toList)).2.unread)).1
        = newToken .WS " ".toList
    ∧ newToken .WS " ".toList ≠ newToken .EQUAL "eq".toList := by decide

/-- C10: every Expect produced by a successful Expect.Parse has operator
eq, ne or tilde (the parser rejects any other operator token), so the
unknown-operator panic branch of expectThing is unreachable for parsed
assertions; that panic is reached by a hand-constructed Expect carrying
any other token type as its operator. -/
theorem claim_C10 :
    (∀ (fuel : Nat) (e0 : Expect) (s : scanner) (e : Expect) (s2 : scanner),
        Expect.Parse fuel e0 s = .ok (e, s2) →
        (e.operator = .EQUAL ∨ e.operator = .NOTEQUAL ∨ e.operator = .TILDE)
        ∧ ∀ a : Str,
            (expectThing e a == Out.halt Halt.panicUnknownOperator) = false)
    ∧ expectThing ⟨[], .EXPECT_METHOD, [], .EOF, []⟩ []
        = .halt .panicUnknownOperator := by
  constructor
  · intro fuel e0 s e s2 h
    have hop : e.operator = .EQUAL ∨ e.operator = .NOTEQUAL ∨
        e.operator = .TILDE := by
      unfold Expect.Parse at h
      rcases h1 : ScanUseful fuel s with ⟨t1, s1⟩
      rw [h1] at h
      dsimp only at h
      by_cases c1 : t1.typ ≠ .REQ ∧ t1.typ ≠ .RESP
      · rw [if_pos c1] at h
        exact Out.noConfusion h
      · rw [if_neg c1] at h
        rcases h2 : ScanUseful fuel s1 with ⟨t2, s2'⟩
        rw [h2] at h
        dsimp only at h
        by_cases c2 : t2.typ ≠ .DOT
        · rw [if_pos c2] at h
          exact Out.noConfusion h
        · rw [if_neg c2] at h
          rcases h3 : ScanUseful fuel s2' with ⟨t3, s3⟩
          rw [h3] at h
          dsimp only at h
          by_cases c3 : t3.typ = .METHOD
          · rw [if_pos c3] at h
            exact ParseTail_ok _ _ _ _ _ h
          · rw [if_neg c3] at h
            by_cases c4 : t3.typ = .STATUS
            · rw [if_pos c4] at h
              exact ParseTail_ok _ _ _ _ _ h
            · rw [if_neg c4] at h
              by_cases c5 : t3.typ = .BODY
              · rw [if_pos c5] at h
                exact ParseTail_ok _ _ _ _ _ h
              · rw [if_neg c5] at h
                by_cases c6 : t3.typ = .HEADERS
                · rw [if_pos c6] at h
                  rcases h4 : ScanUseful fuel s3 with ⟨t4, s4⟩
                  rw [h4] at h
                  dsimp only at h
                  by_cases c7 : t4.typ ≠ .OPEN_BRACKET
                  · rw [if_pos c7] at h
                    exact Out.noConfusion h
                  · rw [if_neg c7] at h
                    rcases h5 : ScanUseful fuel s4 with ⟨t5, s5⟩
                    rw [h5] at h
                    dsimp only at h
                    by_cases c8 : t5.typ ≠ .STRING
                    · rw [if_pos c8] at h
                      exact Out.noConfusion h
                    · rw [if_neg c8] at h
                      rcases h6 : ScanUseful fuel s5 with ⟨t6, s6⟩
                      rw [h6] at h
                      dsimp only at h
                      by_cases c9 : t6.typ ≠ .CLOSE_BRACKET
                      · rw [if_pos c9] at h
                        exact Out.noConfusion h
                      · rw [if_neg c9] at h
                        exact ParseTail_ok _ _ _ _ _ h
                · rw [if_neg c6] at h
                  exact Out.noConfusion h
    exact ⟨hop, fun a => expectThing_no_unknown e a hop⟩
  · rfl

/-- Witness for C10: the assertion parsed from req.method eq GET has
operator eq, and evaluating it never reaches the unknown-operator
panic. -/
theorem claim_C10_witness :
    ((⟨"req.method eq \"GET\"".toList, .EXPECT_METHOD, [], .EQUAL,
        "GET".toList⟩ : Expect).operator = .EQUAL
      ∨ (⟨"req.method eq \"GET\"".toList, .EXPECT_METHOD, [], .EQUAL,
        "GET".toList⟩ : Expect).operator = .NOTEQUAL
      ∨ (⟨"req.method eq \"GET\"".toList, .EXPECT_METHOD, [], .EQUAL,
        "GET".toList⟩ : Expect).operator = .TILDE)
    ∧ ∀ a : Str,
        (expectThing ⟨"req.method eq \"GET\"".toList, .EXPECT_METHOD, [],
          .EQUAL, "GET".toList⟩ a
          == Out.halt Halt.panicUnknownOperator) = false :=
  claim_C10.1 64 emptyExpect (newScanner "req.method eq \"GET\"".toList)
    ⟨"req.method eq \"GET\"".toList, .EXPECT_METHOD, [], .EQUAL, "GET".toList⟩
    ⟨[], some '"'⟩ (by decide)
